import Mathlib

/-!
Verification of the booking/slot subsystem of the clinic-scheduler repository
(source file: src/agents/booking_agent.py). Python strings are embedded as
`List Char` (exact on the ASCII inputs all claims range over; places where
Python's Unicode behaviour diverges are modelled separately and noted), the
two JSON-store dictionaries as association lists with Python-dict semantics
(lookup, insert-or-update preserving position, pop), and each operation as a
pure function from the loaded store to a result message, the resulting store
and whether the operation persisted it.
-/

/-- Python strings are modelled as lists of characters. -/
abbrev Str := List Char

/-! ## Python dictionary model -/

/-- Dictionary lookup: value of the first entry with the given key. -/
def dlookup {β : Type} (k : Str) : List (Str × β) → Option β
  | [] => none
  | e :: es => if e.1 = k then some e.2 else dlookup k es

/-- Dictionary assignment `m[k] = v`: update in place if the key exists,
otherwise append a new entry (Python dicts preserve insertion order). -/
def dinsert {β : Type} (k : Str) (v : β) : List (Str × β) → List (Str × β)
  | [] => [(k, v)]
  | e :: es => if e.1 = k then (k, v) :: es else e :: dinsert k v es

/-- Dictionary `m.pop(k, None)`: remove the entry with the given key, if any. -/
def derase {β : Type} (k : Str) : List (Str × β) → List (Str × β)
  | [] => []
  | e :: es => if e.1 = k then es else e :: derase k es

/-! ## Python string primitives used by the source -/

/-- Python `s.split(sep)` for a one-character separator: keeps empty parts,
`"".split(sep) == [""]`. -/
def pySplit (sep : Char) : Str → List Str
  | [] => [[]]
  | c :: cs =>
    match pySplit sep cs with
    | [] => [[]]
    | g :: gs => if c = sep then [] :: g :: gs else (c :: g) :: gs

/-- Python `s.split()` with no argument: words separated by whitespace runs,
empties dropped. (Lean's `Char.isWhitespace` agrees with Python `str.isspace`
on the ASCII characters the claims use.) -/
def pyWords : Str → List Str
  | [] => []
  | c :: cs =>
    if c.isWhitespace then pyWords cs
    else (c :: cs.takeWhile (fun x => !x.isWhitespace)) ::
      pyWords (cs.dropWhile (fun x => !x.isWhitespace))
termination_by s => s.length
decreasing_by
  · simp
  · simp only [List.length_cons, Nat.lt_succ_iff]
    exact (List.dropWhile_sublist _).length_le

/-- Helper for `pyTitle`: the flag records whether the previous character was
alphabetic (cased). -/
def pyTitleAux (prevAlpha : Bool) : Str → Str
  | [] => []
  | c :: cs =>
    (if c.isAlpha then (if prevAlpha then c.toLower else c.toUpper) else c) ::
      pyTitleAux c.isAlpha cs

/-- Python `s.title()` restricted to ASCII: uppercase a letter that follows a
non-letter, lowercase a letter that follows a letter. -/
def pyTitle (s : Str) : Str := pyTitleAux false s

/-! ## Slot identifier codec (src/agents/booking_agent.py) -/

/-- Embeds `_normalize_doctor`: `"-".join(doctor.strip().lower().split())`.
The `strip()` is redundant before `split()`, and lowering commutes with
whitespace splitting, so this is `words` of the lowercased text joined with
hyphens. -/
def normalize_doctor (doctor : Str) : Str :=
  List.intercalate ['-'] (pyWords (doctor.map Char.toLower))

/-- Embeds `_doctor_label`: `" ".join(doctor_key.split("-")).title()`. -/
def doctor_label (doctor_key : Str) : Str :=
  pyTitle (List.intercalate [' '] (pySplit '-' doctor_key))

/-- Embeds `_slot_key`: the internal index key `f"{doctor_key}:{date}:{time_str}"`. -/
def slot_key (date doctor_key time_str : Str) : Str :=
  doctor_key ++ ':' :: (date ++ ':' :: time_str)

/-- Embeds `_format_slot_id`: `f"{date}:{doctor_key}:{time_str.replace(':', '')}"`. -/
def format_slot_id (date doctor_key time_str : Str) : Str :=
  date ++ ':' :: (doctor_key ++ ':' :: time_str.filter (fun c => c ≠ ':'))

/-- Gregorian leap-year rule, as used by Python's `datetime`. -/
def isLeapYear (y : Nat) : Bool :=
  y % 4 = 0 && (y % 100 ≠ 0 || y % 400 = 0)

/-- Days in a month, as enforced by Python's `datetime` constructor. -/
def daysInMonth (y m : Nat) : Nat :=
  if m = 2 then (if isLeapYear y then 29 else 28)
  else if m = 4 || m = 6 || m = 9 || m = 11 then 30
  else 31

/-- Numeric value of a digit string, as computed by Python `int` on an
all-ASCII-digit token (the only place the source calls `int`, its argument
having already passed a digit check). -/
def digitsVal (t : Str) : Nat :=
  t.foldl (fun a c => a * 10 + (c.toNat - 48)) 0

/-- Embeds the success condition of `datetime.strptime(date, "%Y-%m-%d")`:
the compiled pattern is four digits, a hyphen, a one-or-two-digit month, a
hyphen and a one-or-two-digit day, matching the whole string, followed by the
`datetime` constructor's calendar-range checks (year at least 1, day at most
the month length). Exact on ASCII input; Python's `\d` additionally matches
non-ASCII decimal digits, which no claim exercises. -/
def validDate (date : Str) : Bool :=
  match pySplit '-' date with
  | [y, m, d] =>
    y.length = 4 && y.all Char.isDigit &&
    (m.length = 1 || m.length = 2) && m.all Char.isDigit &&
    (d.length = 1 || d.length = 2) && d.all Char.isDigit &&
    1 ≤ digitsVal y && 1 ≤ digitsVal m && digitsVal m ≤ 12 &&
    1 ≤ digitsVal d && digitsVal d ≤ daysInMonth (digitsVal y) (digitsVal m)
  | _ => false

/-- The character for a digit value: `Char.ofNat (48 + n)` is `'0'`..`'9'`
for `n ≤ 9`. -/
def digitChar (n : Nat) : Char := Char.ofNat (48 + n)

/-- Embeds Python `f"{n:04d}"` for a natural number: left-pad the decimal
representation with zeros to width four. The source only applies it to values
below 10000 (the token has at most four digits). -/
def py04d (n : Nat) : Str :=
  if n < 10000 then
    [digitChar (n / 1000), digitChar (n / 100 % 10), digitChar (n / 10 % 10),
      digitChar (n % 10)]
  else Nat.toDigits 10 n

/-- The normalized `HH:MM` time built by `_parse_slot_id` from a cleaned
numeric token: pad to four digits and insert a colon after position two. -/
def normTime (tt : Str) : Str :=
  (py04d (digitsVal tt)).take 2 ++ ':' :: (py04d (digitsVal tt)).drop 2

/-- The shared tail of `_parse_slot_id` once the date, provider and raw time
token have been selected: validate the date, strip stray hyphens and
underscores from the token, require a three-or-four-digit token, and
normalize. -/
def parseTail (date doctor_key time_token : Str) : Option (Str × Str × Str) :=
  if validDate date then
    if ((time_token.filter (fun c => c ≠ '-' && c ≠ '_')).length = 3 ||
          (time_token.filter (fun c => c ≠ '-' && c ≠ '_')).length = 4) &&
        (time_token.filter (fun c => c ≠ '-' && c ≠ '_')).all Char.isDigit then
      some (date, doctor_key, normTime (time_token.filter (fun c => c ≠ '-' && c ≠ '_')))
    else none
  else none

/-- Embeds `_parse_slot_id`. Splitting on `':'` into exactly three parts
selects the canonical form; otherwise the space-stripped text must be at
least 13 characters with `'-'` or `'_'` at index 10, giving the legacy form
with provider `any`. The Python digit check `time_token.isdigit()` is
modelled as an ASCII digit check, exact on ASCII; the divergence on non-ASCII
digit characters (where the source raises) is modelled by
`parse_slot_id_raises` below. -/
def parse_slot_id (slot_id : Str) : Option (Str × Str × Str) :=
  match pySplit ':' slot_id with
  | [date, doctor_key, time_token] => parseTail date doctor_key time_token
  | _ =>
    if 13 ≤ (slot_id.filter (fun c => c ≠ ' ')).length &&
        ((slot_id.filter (fun c => c ≠ ' ')).get? 10 = some '-' ||
          (slot_id.filter (fun c => c ≠ ' ')).get? 10 = some '_') then
      parseTail ((slot_id.filter (fun c => c ≠ ' ')).take 10) ("any".toList)
        ((slot_id.filter (fun c => c ≠ ' ')).drop 11)
    else none

/-! ## Store and operations -/

/-- A booking record, with the fields the source writes into
`store["bookings"][confirmation]`. -/
structure Booking where
  patient : Str
  reason : Str
  slot_id : Str
  slot_key : Str
  doctor : Str
  date : Str
  time : Str
deriving Repr, DecidableEq

/-- The persisted store: `bookings` maps confirmation codes to records,
`booked_slots` maps slot keys to confirmation codes. -/
structure Store where
  bookings : List (Str × Booking)
  booked_slots : List (Str × Str)
deriving Repr, DecidableEq

/-- The empty store `_load_store` returns when the backing file is absent or
corrupt. -/
def emptyStore : Store := ⟨[], []⟩

/-- Result of one operation: the returned status message, the store after the
load-mutate-save cycle, and whether `_persist_store` was called. -/
structure OpResult where
  msg : Str
  store : Store
  persisted : Bool
deriving Repr, DecidableEq

def invalidSlotMsg : Str :=
  "✕ Invalid slot identifier. Please use the provided slot id format.".toList

def slotUnavailableMsg : Str :=
  "✕ That slot is no longer available. Please choose another time.".toList

def notFoundMsg : Str := "✕ Appointment not found.".toList

def invalidNewSlotMsg : Str :=
  "✕ Invalid new slot identifier. Please use the provided slot id format.".toList

def newSlotUnavailableMsg : Str :=
  "✕ That new slot is no longer available. Please choose another time.".toList

def bookedMsg (patient doctor date time conf : Str) : Str :=
  "✓ Appointment booked for ".toList ++ patient ++ " with ".toList ++ doctor ++
    " on ".toList ++ date ++ " at ".toList ++ time ++
    ". Confirmation: ".toList ++ conf

def cancelledMsg (id : Str) : Str :=
  "✓ Appointment ".toList ++ id ++ " cancelled successfully.".toList

def rescheduledMsg (id date time : Str) : Str :=
  "✓ Appointment ".toList ++ id ++ " rescheduled to ".toList ++ date ++
    " at ".toList ++ time ++ ".".toList

/-- The fixed daily schedule template `DEFAULT_TIME_SLOTS`. -/
def DEFAULT_TIME_SLOTS : List Str :=
  ["09:00".toList, "14:00".toList, "16:30".toList]

/-- Embeds `book_appointment`. The randomly generated confirmation code
`f"APT-{uuid4().hex[:8].upper()}"` is passed in as the `confirmation`
parameter. -/
def book_appointment (confirmation slot_id patient_name reason : Str)
    (store : Store) : OpResult :=
  match parse_slot_id slot_id with
  | none => ⟨invalidSlotMsg, store, false⟩
  | some (date, doctor_key, time_str) =>
    let key := slot_key date doctor_key time_str
    if (dlookup key store.booked_slots).isSome then
      ⟨slotUnavailableMsg, store, false⟩
    else
      let record : Booking :=
        ⟨patient_name, reason, slot_id, key, doctor_label doctor_key, date, time_str⟩
      ⟨bookedMsg patient_name (doctor_label doctor_key) date time_str confirmation,
        ⟨dinsert confirmation record store.bookings,
          dinsert key confirmation store.booked_slots⟩, true⟩

/-- Embeds `cancel_appointment`. -/
def cancel_appointment (appointment_id : Str) (store : Store) : OpResult :=
  match dlookup appointment_id store.bookings with
  | none => ⟨notFoundMsg, store, false⟩
  | some booking =>
    ⟨cancelledMsg appointment_id,
      ⟨derase appointment_id store.bookings,
        derase booking.slot_key store.booked_slots⟩, true⟩

/-- Embeds `reschedule_appointment`. The `if old_slot_key:` truthiness test
of the source is the emptiness test on the stored key. -/
def reschedule_appointment (appointment_id new_slot_id : Str)
    (store : Store) : OpResult :=
  match dlookup appointment_id store.bookings with
  | none => ⟨notFoundMsg, store, false⟩
  | some booking =>
    match parse_slot_id new_slot_id with
    | none => ⟨invalidNewSlotMsg, store, false⟩
    | some (date, doctor_key, time_str) =>
      let key := slot_key date doctor_key time_str
      if (dlookup key store.booked_slots).isSome then
        ⟨newSlotUnavailableMsg, store, false⟩
      else
        let slots1 :=
          if booking.slot_key ≠ [] then derase booking.slot_key store.booked_slots
          else store.booked_slots
        let booking' : Booking :=
          { booking with
              slot_id := new_slot_id
              slot_key := key
              doctor := doctor_label doctor_key
              date := date
              time := time_str }
        ⟨rescheduledMsg appointment_id date time_str,
          ⟨dinsert appointment_id booking' store.bookings,
            dinsert key appointment_id slots1⟩, true⟩

/-- The list of open-slot entries built by the loop in `check_availability`. -/
def openSlots (date doctor : Str) (store : Store) : List Str :=
  DEFAULT_TIME_SLOTS.filterMap (fun time_str =>
    if (dlookup
        (slot_key date (normalize_doctor (if doctor = [] then "clinic".toList else doctor)) time_str)
        store.booked_slots).isSome then
      none
    else
      some (time_str ++ " (slot ".toList ++
        format_slot_id date
          (normalize_doctor (if doctor = [] then "clinic".toList else doctor)) time_str ++
        ")".toList))

/-- Embeds `check_availability`: the returned summary string. -/
def check_availability (date doctor : Str) (store : Store) : Str :=
  if openSlots date doctor store = [] then
    "No open slots for Dr. ".toList ++ doctor ++ " on ".toList ++ date ++ ".".toList
  else
    "Available slots for Dr. ".toList ++ doctor ++ " on ".toList ++ date ++
      ": ".toList ++ List.intercalate (", ".toList) (openSlots date doctor store)

/-! ## Store invariants -/

/-- Well-formedness every Python dict has by construction: keys are unique. -/
def WF (st : Store) : Prop :=
  (st.bookings.map Prod.fst).Nodup ∧ (st.booked_slots.map Prod.fst).Nodup

/-- The spec's store-consistency invariant: each slot-index entry points at an
existing booking whose `slot_key` field is that entry's key, and every
confirmation code in `bookings` appears as a value of `booked_slots`. -/
def StoreInv (st : Store) : Prop :=
  (∀ e ∈ st.booked_slots,
    (dlookup e.2 st.bookings).map Booking.slot_key = some e.1) ∧
  (∀ e ∈ st.bookings, e.1 ∈ st.booked_slots.map Prod.snd)

/-- Slot-index keys produced by `_slot_key` are never empty; this auxiliary
strengthening makes the invariant inductive across `reschedule_appointment`,
whose `if old_slot_key:` guard skips the release of an empty stored key. -/
def slotKeysNE (st : Store) : Prop := ∀ e ∈ st.booked_slots, e.1 ≠ []

/-- The inductive store invariant: dict well-formedness, nonempty slot keys,
and the spec's consistency invariant `StoreInv`. -/
def GoodStore (st : Store) : Prop := WF st ∧ slotKeysNE st ∧ StoreInv st

instance (st : Store) : Decidable (WF st) := by
  unfold WF
  infer_instance

instance (st : Store) : Decidable (slotKeysNE st) := by
  unfold slotKeysNE
  infer_instance

instance (st : Store) : Decidable (StoreInv st) := by
  unfold StoreInv
  infer_instance

instance (st : Store) : Decidable (GoodStore st) := by
  unfold GoodStore
  infer_instance

/-! ## Dictionary lemmas -/

theorem dlookup_dinsert_self {β : Type} (k : Str) (v : β) (m : List (Str × β)) :
    dlookup k (dinsert k v m) = some v := by
  induction m with
  | nil => simp [dinsert, dlookup]
  | cons e es ih =>
    by_cases h : e.1 = k
    · simp [dinsert, dlookup, h]
    · simp [dinsert, dlookup, h, ih]

theorem dlookup_dinsert_ne {β : Type} {k k' : Str} (v : β) (m : List (Str × β))
    (h : k' ≠ k) : dlookup k' (dinsert k v m) = dlookup k' m := by
  induction m with
  | nil => simp [dinsert, dlookup, Ne.symm h]
  | cons e es ih =>
    by_cases he : e.1 = k
    · subst he
      simp [dinsert, dlookup, Ne.symm h]
    · simp [dinsert, dlookup, he, ih]

theorem dlookup_derase_ne {β : Type} {k k' : Str} (m : List (Str × β))
    (h : k' ≠ k) : dlookup k' (derase k m) = dlookup k' m := by
  induction m with
  | nil => simp [derase]
  | cons e es ih =>
    by_cases he : e.1 = k
    · subst he
      simp [derase, dlookup, Ne.symm h]
    · simp [derase, dlookup, he, ih]

theorem derase_sublist {β : Type} (k : Str) (m : List (Str × β)) :
    (derase k m).Sublist m := by
  induction m with
  | nil => simp [derase]
  | cons e es ih =>
    by_cases he : e.1 = k
    · simp [derase, he]
    · simpa [derase, he] using ih.cons₂ e

theorem mem_of_mem_derase {β : Type} {k : Str} {m : List (Str × β)}
    {e : Str × β} (h : e ∈ derase k m) : e ∈ m :=
  (derase_sublist k m).subset h

theorem mem_derase_of_ne {β : Type} {k : Str} {m : List (Str × β)}
    {e : Str × β} (hm : e ∈ m) (hne : e.1 ≠ k) : e ∈ derase k m := by
  induction m with
  | nil => simp at hm
  | cons f fs ih =>
    by_cases hf : f.1 = k
    · rcases List.mem_cons.mp hm with h | h
      · exact absurd (h ▸ hf) hne
      · simpa [derase, hf] using h
    · rcases List.mem_cons.mp hm with h | h
      · simp [derase, hf, h]
      · simp [derase, hf, ih h]

theorem derase_eq_of_lookup_none {β : Type} {k : Str} {m : List (Str × β)}
    (h : dlookup k m = none) : derase k m = m := by
  induction m with
  | nil => simp [derase]
  | cons e es ih =>
    by_cases he : e.1 = k
    · simp [dlookup, he] at h
    · simp [dlookup, he] at h
      simp [derase, he, ih h]

theorem dinsert_eq_append {β : Type} {k : Str} (v : β) {m : List (Str × β)}
    (h : dlookup k m = none) : dinsert k v m = m ++ [(k, v)] := by
  induction m with
  | nil => simp [dinsert]
  | cons e es ih =>
    by_cases he : e.1 = k
    · simp [dlookup, he] at h
    · simp [dlookup, he] at h
      simp [dinsert, he, ih h]

theorem dlookup_append_of_none {β : Type} {k : Str} {m m' : List (Str × β)}
    (h : dlookup k m = none) : dlookup k (m ++ m') = dlookup k m' := by
  induction m with
  | nil => simp
  | cons e es ih =>
    by_cases he : e.1 = k
    · simp [dlookup, he] at h
    · simp [dlookup, he] at h ⊢
      exact ih h

theorem dlookup_append_of_some {β : Type} {k : Str} {v : β} {m m' : List (Str × β)}
    (h : dlookup k m = some v) : dlookup k (m ++ m') = some v := by
  induction m with
  | nil => simp [dlookup] at h
  | cons e es ih =>
    by_cases he : e.1 = k
    · simp [dlookup, he] at h ⊢
      exact h
    · simp [dlookup, he] at h ⊢
      exact ih h

theorem dlookup_isSome_iff_mem_keys {β : Type} {k : Str} {m : List (Str × β)} :
    (dlookup k m).isSome ↔ k ∈ m.map Prod.fst := by
  induction m with
  | nil => simp [dlookup]
  | cons e es ih =>
    simp only [dlookup, List.map_cons, List.mem_cons]
    by_cases he : e.1 = k
    · rw [if_pos he]
      exact ⟨fun _ => Or.inl he.symm, fun _ => rfl⟩
    · simp only [if_neg he]
      rw [ih]
      constructor
      · exact fun h => Or.inr h
      · rintro (h | h)
        · exact absurd h.symm he
        · exact h

theorem dlookup_eq_none_iff_not_mem_keys {β : Type} {k : Str} {m : List (Str × β)} :
    dlookup k m = none ↔ k ∉ m.map Prod.fst := by
  rw [← dlookup_isSome_iff_mem_keys, ← Option.not_isSome_iff_eq_none]

theorem mem_of_dlookup_eq_some {β : Type} {k : Str} {v : β} {m : List (Str × β)}
    (h : dlookup k m = some v) : (k, v) ∈ m := by
  induction m with
  | nil => simp [dlookup] at h
  | cons e es ih =>
    by_cases he : e.1 = k
    · simp only [dlookup, if_pos he, Option.some.injEq] at h
      exact List.mem_cons.mpr (Or.inl (Prod.ext_iff.mpr ⟨he.symm, h.symm⟩))
    · simp only [dlookup, if_neg he] at h
      exact List.mem_cons_of_mem _ (ih h)

theorem dlookup_eq_some_of_mem_nodup {β : Type} {k : Str} {v : β}
    {m : List (Str × β)} (hn : (m.map Prod.fst).Nodup) (hm : (k, v) ∈ m) :
    dlookup k m = some v := by
  induction m with
  | nil => simp at hm
  | cons e es ih =>
    simp only [List.map_cons, List.nodup_cons] at hn
    rcases List.mem_cons.mp hm with h | h
    · simp [dlookup, ← h]
    · have hek : e.1 ≠ k := by
        intro he
        exact hn.1 (he ▸ (List.mem_map.mpr ⟨(k, v), h, rfl⟩))
      simp [dlookup, hek, ih hn.2 h]

theorem nodup_key_unique {β : Type} {k : Str} {v w : β} {m : List (Str × β)}
    (hn : (m.map Prod.fst).Nodup) (hv : (k, v) ∈ m) (hw : (k, w) ∈ m) : v = w := by
  have h1 := dlookup_eq_some_of_mem_nodup hn hv
  have h2 := dlookup_eq_some_of_mem_nodup hn hw
  rw [h1] at h2
  exact Option.some.inj h2

theorem dlookup_derase_self {β : Type} {k : Str} {m : List (Str × β)}
    (hn : (m.map Prod.fst).Nodup) : dlookup k (derase k m) = none := by
  induction m with
  | nil => simp [derase, dlookup]
  | cons e es ih =>
    simp only [List.map_cons, List.nodup_cons] at hn
    by_cases he : e.1 = k
    · rw [derase, if_pos he]
      rw [dlookup_eq_none_iff_not_mem_keys]
      exact he ▸ hn.1
    · rw [derase, if_neg he, dlookup, if_neg he]
      exact ih hn.2

theorem mem_dinsert {β : Type} {k : Str} {v : β} {m : List (Str × β)}
    {e : Str × β} (h : e ∈ dinsert k v m) : e = (k, v) ∨ e ∈ m := by
  induction m with
  | nil => simpa [dinsert] using h
  | cons f fs ih =>
    by_cases hf : f.1 = k
    · simp only [dinsert, if_pos hf] at h
      rcases List.mem_cons.mp h with h | h
      · exact Or.inl h
      · exact Or.inr (List.mem_cons_of_mem _ h)
    · simp only [dinsert, if_neg hf] at h
      rcases List.mem_cons.mp h with h | h
      · exact Or.inr (h ▸ List.mem_cons_self f fs)
      · rcases ih h with h' | h'
        · exact Or.inl h'
        · exact Or.inr (List.mem_cons_of_mem _ h')

theorem keys_dinsert_of_mem {β : Type} {k : Str} (v : β) {m : List (Str × β)}
    (h : k ∈ m.map Prod.fst) :
    (dinsert k v m).map Prod.fst = m.map Prod.fst := by
  induction m with
  | nil => simp at h
  | cons e es ih =>
    by_cases he : e.1 = k
    · simp [dinsert, he]
    · simp only [List.map_cons, List.mem_cons] at h
      rcases h with h' | h'
      · exact absurd h'.symm he
      · simp [dinsert, he, ih h']

/-! ## Character and digit lemmas -/

theorem toNat_bounds_of_isDigit {c : Char} (h : c.isDigit = true) :
    48 ≤ c.toNat ∧ c.toNat ≤ 57 := by
  simp only [Char.isDigit, Bool.and_eq_true, decide_eq_true_eq] at h
  obtain ⟨h1, h2⟩ := h
  exact ⟨BitVec.le_def.mp (UInt32.le_def.mp h1), BitVec.le_def.mp (UInt32.le_def.mp h2)⟩

theorem digitChar_toNat_sub {c : Char} (h : c.isDigit = true) :
    digitChar (c.toNat - 48) = c := by
  have hb := toNat_bounds_of_isDigit h
  rw [digitChar, Nat.add_sub_cancel' hb.1]
  exact Char.ofNat_toNat c

theorem digit_ne_specials {c : Char} (h : c.isDigit = true) :
    c ≠ ':' ∧ c ≠ '-' ∧ c ≠ '_' ∧ c ≠ ' ' := by
  obtain ⟨h1, h2⟩ := toNat_bounds_of_isDigit h
  refine ⟨?_, ?_, ?_, ?_⟩ <;> rintro rfl <;> revert h1 h2 <;> decide

theorem py04d_digitsVal {t : Str} (h4 : t.length = 4)
    (hd : t.all Char.isDigit = true) : py04d (digitsVal t) = t := by
  obtain ⟨a, b, c, d, rfl⟩ : ∃ a b c d, t = [a, b, c, d] := by
    match t, h4 with
    | [a, b, c, d], _ => exact ⟨a, b, c, d, rfl⟩
  simp only [List.all_cons, List.all_nil, Bool.and_eq_true, and_true] at hd
  obtain ⟨ha, hb, hc, hd'⟩ := hd
  obtain ⟨ha1, ha2⟩ := toNat_bounds_of_isDigit ha
  obtain ⟨hb1, hb2⟩ := toNat_bounds_of_isDigit hb
  obtain ⟨hc1, hc2⟩ := toNat_bounds_of_isDigit hc
  obtain ⟨hd1, hd2⟩ := toNat_bounds_of_isDigit hd'
  have hval : digitsVal [a, b, c, d] =
      (((a.toNat - 48) * 10 + (b.toNat - 48)) * 10 + (c.toNat - 48)) * 10 +
        (d.toNat - 48) := by
    simp [digitsVal]
  rw [py04d, hval, if_pos (by omega)]
  have e1 : ((((a.toNat - 48) * 10 + (b.toNat - 48)) * 10 + (c.toNat - 48)) * 10 +
      (d.toNat - 48)) / 1000 = a.toNat - 48 := by omega
  have e2 : ((((a.toNat - 48) * 10 + (b.toNat - 48)) * 10 + (c.toNat - 48)) * 10 +
      (d.toNat - 48)) / 100 % 10 = b.toNat - 48 := by omega
  have e3 : ((((a.toNat - 48) * 10 + (b.toNat - 48)) * 10 + (c.toNat - 48)) * 10 +
      (d.toNat - 48)) / 10 % 10 = c.toNat - 48 := by omega
  have e4 : ((((a.toNat - 48) * 10 + (b.toNat - 48)) * 10 + (c.toNat - 48)) * 10 +
      (d.toNat - 48)) % 10 = d.toNat - 48 := by omega
  rw [e1, e2, e3, e4, digitChar_toNat_sub ha, digitChar_toNat_sub hb,
    digitChar_toNat_sub hc, digitChar_toNat_sub hd']

/-! ## Split lemmas -/

theorem pySplit_ne_nil (sep : Char) (l : Str) : pySplit sep l ≠ [] := by
  cases l with
  | nil => simp [pySplit]
  | cons c cs =>
    simp only [pySplit]
    rcases h : pySplit sep cs with _ | ⟨g, gs⟩
    · simp
    · by_cases hc : c = sep <;> simp [hc]

theorem pySplit_no_sep {sep : Char} {l : Str} (h : sep ∉ l) : pySplit sep l = [l] := by
  induction l with
  | nil => rfl
  | cons c cs ih =>
    have hc : c ≠ sep := fun hh => h (hh ▸ List.mem_cons_self c cs)
    have hcs : sep ∉ cs := fun hh => h (List.mem_cons_of_mem c hh)
    simp only [pySplit, ih hcs]
    simp [hc]

theorem pySplit_append {sep : Char} {xs : Str} (ys : Str) (h : sep ∉ xs) :
    pySplit sep (xs ++ sep :: ys) = xs :: pySplit sep ys := by
  induction xs with
  | nil =>
    simp only [List.nil_append, pySplit]
    rcases hy : pySplit sep ys with _ | ⟨g, gs⟩
    · exact absurd hy (pySplit_ne_nil sep ys)
    · simp
  | cons x xs ih =>
    have hx : x ≠ sep := fun hh => h (hh ▸ List.mem_cons_self x xs)
    have hxs : sep ∉ xs := fun hh => h (List.mem_cons_of_mem x hh)
    simp only [List.cons_append, pySplit, List.append_eq]
    rw [ih hxs]
    simp [hx]

theorem mem_split_parts {sep : Char} {l : Str} {c : Char} (hc : c ∈ l) :
    c = sep ∨ ∃ p, p ∈ pySplit sep l ∧ c ∈ p := by
  induction l with
  | nil => simp at hc
  | cons x xs ih =>
    rcases hy : pySplit sep xs with _ | ⟨g, gs⟩
    · exact absurd hy (pySplit_ne_nil sep xs)
    · by_cases hx : x = sep
      · rcases List.mem_cons.mp hc with h | h
        · exact Or.inl (h.trans hx)
        · rcases ih h with h' | ⟨p, hp, hcp⟩
          · exact Or.inl h'
          · refine Or.inr ⟨p, ?_, hcp⟩
            rw [hy] at hp
            simp [pySplit, hy, hx, hp]
      · rcases List.mem_cons.mp hc with h | h
        · subst h
          refine Or.inr ⟨c :: g, ?_, List.mem_cons_self _ _⟩
          simp [pySplit, hy, hx]
        · rcases ih h with h' | ⟨p, hp, hcp⟩
          · exact Or.inl h'
          · rw [hy] at hp
            rcases List.mem_cons.mp hp with h'' | h''
            · subst h''
              refine Or.inr ⟨x :: p, ?_, List.mem_cons_of_mem _ hcp⟩
              simp [pySplit, hy, hx]
            · refine Or.inr ⟨p, ?_, hcp⟩
              simp [pySplit, hy, hx, h'']

/-! ## Date validation lemmas -/

theorem validDate_all_digits {date : Str} (h : validDate date = true) :
    ∃ y m d, pySplit '-' date = [y, m, d] ∧ y.all Char.isDigit = true ∧
      m.all Char.isDigit = true ∧ d.all Char.isDigit = true := by
  rcases hsp : pySplit '-' date with _ | ⟨y, _ | ⟨m, _ | ⟨d, _ | ⟨e, rest⟩⟩⟩⟩ <;>
    simp only [validDate, hsp, Bool.false_eq_true] at h
  simp only [Bool.and_eq_true] at h
  obtain ⟨⟨⟨⟨⟨⟨⟨⟨⟨⟨c1, c2⟩, c3⟩, c4⟩, c5⟩, c6⟩, c7⟩, c8⟩, c9⟩, c10⟩, c11⟩ := h
  exact ⟨y, m, d, rfl, c2, c4, c6⟩

theorem validDate_mem {date : Str} (h : validDate date = true) {c : Char}
    (hc : c ∈ date) : c.isDigit = true ∨ c = '-' := by
  rcases @mem_split_parts '-' date c hc with h' | ⟨p, hp, hcp⟩
  · exact Or.inr h'
  · left
    obtain ⟨y, m, d, hsp, hy, hm, hd⟩ := validDate_all_digits h
    rw [hsp] at hp
    rcases List.mem_cons.mp hp with hh | hh
    · exact List.all_eq_true.mp hy _ (hh ▸ hcp)
    rcases List.mem_cons.mp hh with hh' | hh'
    · exact List.all_eq_true.mp hm _ (hh' ▸ hcp)
    rcases List.mem_cons.mp hh' with hh'' | hh''
    · exact List.all_eq_true.mp hd _ (hh'' ▸ hcp)
    · simp at hh''

theorem validDate_no_colon {date : Str} (h : validDate date = true) :
    ':' ∉ date := by
  intro hc
  rcases validDate_mem h hc with h' | h'
  · exact absurd h' (by decide)
  · exact absurd h' (by decide)

/-! ## Parse lemmas -/

theorem no_colon_of_all_digits {t : Str} (hd : t.all Char.isDigit = true) :
    ':' ∉ t :=
  fun hc => (digit_ne_specials (List.all_eq_true.mp hd _ hc)).1 rfl

theorem filter_dash_us_of_digits {t : Str} (hd : t.all Char.isDigit = true) :
    t.filter (fun c => c ≠ '-' && c ≠ '_') = t := by
  rw [List.filter_eq_self]
  intro a ha
  have h := digit_ne_specials (List.all_eq_true.mp hd a ha)
  simp [h.2.1, h.2.2.1]

theorem filter_colon_of_digits {t : Str} (hd : t.all Char.isDigit = true) :
    t.filter (fun c => c ≠ ':') = t := by
  rw [List.filter_eq_self]
  intro a ha
  simp [(digit_ne_specials (List.all_eq_true.mp hd a ha)).1]

theorem parseTail_digits {date prov t : Str} (hd : validDate date = true)
    (hlen : t.length = 3 ∨ t.length = 4) (hdig : t.all Char.isDigit = true) :
    parseTail date prov t = some (date, prov, normTime t) := by
  have hcond : ((t.length = 3 || t.length = 4) && t.all Char.isDigit) = true := by
    rcases hlen with h | h <;> simp [h, hdig]
  unfold parseTail
  rw [filter_dash_us_of_digits hdig, if_pos hd, if_pos hcond]

theorem parse_canonical {date prov t : Str} (hd : validDate date = true)
    (hpc : ':' ∉ prov) (hlen : t.length = 3 ∨ t.length = 4)
    (hdig : t.all Char.isDigit = true) :
    parse_slot_id (date ++ ':' :: (prov ++ ':' :: t)) = some (date, prov, normTime t) := by
  have hdc : ':' ∉ date := validDate_no_colon hd
  have htc : ':' ∉ t := no_colon_of_all_digits hdig
  have hsp : pySplit ':' (date ++ ':' :: (prov ++ ':' :: t)) = [date, prov, t] := by
    rw [pySplit_append _ hdc, pySplit_append _ hpc, pySplit_no_sep htc]
  unfold parse_slot_id
  rw [hsp]
  exact parseTail_digits hd hlen hdig

theorem normTime_of_four_digits {t : Str} (h4 : t.length = 4)
    (hd : t.all Char.isDigit = true) :
    normTime t = t.take 2 ++ ':' :: t.drop 2 := by
  rw [normTime, py04d_digitsVal h4 hd]

theorem filter_colon_normTime {t : Str} (h4 : t.length = 4)
    (hd : t.all Char.isDigit = true) :
    (normTime t).filter (fun c => c ≠ ':') = t := by
  rw [normTime_of_four_digits h4 hd, List.filter_append]
  have htake : (t.take 2).all Char.isDigit = true := by
    rw [List.all_eq_true] at hd ⊢
    exact fun a ha => hd a (List.take_subset 2 t ha)
  have hdrop : (t.drop 2).all Char.isDigit = true := by
    rw [List.all_eq_true] at hd ⊢
    exact fun a ha => hd a (List.drop_subset 2 t ha)
  rw [filter_colon_of_digits htake]
  have : (':' :: t.drop 2).filter (fun c => c ≠ ':') = t.drop 2 := by
    rw [List.filter_cons, if_neg (by decide), filter_colon_of_digits hdrop]
  rw [this, List.take_append_drop]

theorem format_normTime (date prov : Str) {t : Str} (h4 : t.length = 4)
    (hd : t.all Char.isDigit = true) :
    format_slot_id date prov (normTime t) = date ++ ':' :: (prov ++ ':' :: t) := by
  rw [format_slot_id, filter_colon_normTime h4 hd]

theorem normTime_all_digits_aux {t : Str} (hlen : t.length = 3 ∨ t.length = 4)
    (hd : t.all Char.isDigit = true) :
    (py04d (digitsVal t)).length = 4 ∧ (py04d (digitsVal t)).all Char.isDigit = true := by
  have hval : digitsVal t < 10000 := by
    rcases hlen with h3 | h4
    · obtain ⟨a, b, c, rfl⟩ : ∃ a b c, t = [a, b, c] := by
        match t, h3 with
        | [a, b, c], _ => exact ⟨a, b, c, rfl⟩
      simp only [List.all_cons, List.all_nil, Bool.and_eq_true, and_true] at hd
      have ha2 := (toNat_bounds_of_isDigit hd.1).2
      have hb2 := (toNat_bounds_of_isDigit hd.2.1).2
      have hc2 := (toNat_bounds_of_isDigit hd.2.2).2
      have : digitsVal [a, b, c] =
          ((a.toNat - 48) * 10 + (b.toNat - 48)) * 10 + (c.toNat - 48) := by
        simp [digitsVal]
      omega
    · obtain ⟨a, b, c, d, rfl⟩ : ∃ a b c d, t = [a, b, c, d] := by
        match t, h4 with
        | [a, b, c, d], _ => exact ⟨a, b, c, d, rfl⟩
      simp only [List.all_cons, List.all_nil, Bool.and_eq_true, and_true] at hd
      have ha2 := (toNat_bounds_of_isDigit hd.1).2
      have hb2 := (toNat_bounds_of_isDigit hd.2.1).2
      have hc2 := (toNat_bounds_of_isDigit hd.2.2.1).2
      have hd2 := (toNat_bounds_of_isDigit hd.2.2.2).2
      have : digitsVal [a, b, c, d] =
          (((a.toNat - 48) * 10 + (b.toNat - 48)) * 10 + (c.toNat - 48)) * 10 +
            (d.toNat - 48) := by
        simp [digitsVal]
      omega
  rw [py04d, if_pos hval]
  refine ⟨rfl, ?_⟩
  have hdig : ∀ n : Nat, n ≤ 9 → (digitChar n).isDigit = true := by decide
  simp only [List.all_cons, List.all_nil, Bool.and_eq_true, and_true]
  exact ⟨hdig _ (by omega), hdig _ (by omega), hdig _ (by omega), hdig _ (by omega)⟩

theorem parseTail_clean {date prov t0 : Str} (hd : validDate date = true)
    (hlt : (t0.filter (fun c => c ≠ '-' && c ≠ '_')).length = 3 ∨
      (t0.filter (fun c => c ≠ '-' && c ≠ '_')).length = 4)
    (hdig : (t0.filter (fun c => c ≠ '-' && c ≠ '_')).all Char.isDigit = true) :
    parseTail date prov t0 =
      some (date, prov, normTime (t0.filter (fun c => c ≠ '-' && c ≠ '_'))) := by
  have hcond : (((t0.filter (fun c => c ≠ '-' && c ≠ '_')).length = 3 ||
      (t0.filter (fun c => c ≠ '-' && c ≠ '_')).length = 4) &&
      (t0.filter (fun c => c ≠ '-' && c ≠ '_')).all Char.isDigit) = true := by
    rw [Bool.and_eq_true, Bool.or_eq_true]
    rcases hlt with h | h
    · exact ⟨Or.inl (decide_eq_true h), hdig⟩
    · exact ⟨Or.inr (decide_eq_true h), hdig⟩
  unfold parseTail
  rw [if_pos hd, if_pos hcond]

theorem parse_legacy (s : Str) (hnc : ':' ∉ s)
    (hlen : 13 ≤ (s.filter (fun c => c ≠ ' ')).length)
    (hsep : (s.filter (fun c => c ≠ ' ')).get? 10 = some '-' ∨
      (s.filter (fun c => c ≠ ' ')).get? 10 = some '_')
    (hd : validDate ((s.filter (fun c => c ≠ ' ')).take 10) = true)
    (hlt : (((s.filter (fun c => c ≠ ' ')).drop 11).filter
        (fun c => c ≠ '-' && c ≠ '_')).length = 3 ∨
      (((s.filter (fun c => c ≠ ' ')).drop 11).filter
        (fun c => c ≠ '-' && c ≠ '_')).length = 4)
    (hdig : (((s.filter (fun c => c ≠ ' ')).drop 11).filter
        (fun c => c ≠ '-' && c ≠ '_')).all Char.isDigit = true) :
    parse_slot_id s = some ((s.filter (fun c => c ≠ ' ')).take 10, "any".toList,
      normTime (((s.filter (fun c => c ≠ ' ')).drop 11).filter
        (fun c => c ≠ '-' && c ≠ '_'))) := by
  have hcond : (13 ≤ (s.filter (fun c => c ≠ ' ')).length &&
      ((s.filter (fun c => c ≠ ' ')).get? 10 = some '-' ||
        (s.filter (fun c => c ≠ ' ')).get? 10 = some '_')) = true := by
    rw [Bool.and_eq_true, Bool.or_eq_true]
    rcases hsep with h | h
    · exact ⟨decide_eq_true hlen, Or.inl (decide_eq_true h)⟩
    · exact ⟨decide_eq_true hlen, Or.inr (decide_eq_true h)⟩
  unfold parse_slot_id
  rw [pySplit_no_sep hnc]
  exact (if_pos hcond).trans (parseTail_clean hd hlt hdig)

/-! ## Operation unfolding lemmas -/

theorem book_invalid {conf sid p r : Str} {st : Store}
    (hp : parse_slot_id sid = none) :
    book_appointment conf sid p r st = ⟨invalidSlotMsg, st, false⟩ := by
  simp [book_appointment, hp]

theorem book_unavailable {conf sid p r d dk t : Str} {st : Store}
    (hp : parse_slot_id sid = some (d, dk, t))
    (htaken : (dlookup (slot_key d dk t) st.booked_slots).isSome = true) :
    book_appointment conf sid p r st = ⟨slotUnavailableMsg, st, false⟩ := by
  simp [book_appointment, hp, htaken]

theorem book_free {conf sid p r d dk t : Str} {st : Store}
    (hp : parse_slot_id sid = some (d, dk, t))
    (hfree : dlookup (slot_key d dk t) st.booked_slots = none) :
    book_appointment conf sid p r st =
      ⟨bookedMsg p (doctor_label dk) d t conf,
        ⟨dinsert conf ⟨p, r, sid, slot_key d dk t, doctor_label dk, d, t⟩ st.bookings,
          dinsert (slot_key d dk t) conf st.booked_slots⟩, true⟩ := by
  simp [book_appointment, hp, hfree]

theorem cancel_not_found {id : Str} {st : Store}
    (h : dlookup id st.bookings = none) :
    cancel_appointment id st = ⟨notFoundMsg, st, false⟩ := by
  simp [cancel_appointment, h]

theorem cancel_found {id : Str} {st : Store} {b : Booking}
    (h : dlookup id st.bookings = some b) :
    cancel_appointment id st = ⟨cancelledMsg id,
      ⟨derase id st.bookings, derase b.slot_key st.booked_slots⟩, true⟩ := by
  simp [cancel_appointment, h]

theorem resched_not_found {id sid : Str} {st : Store}
    (h : dlookup id st.bookings = none) :
    reschedule_appointment id sid st = ⟨notFoundMsg, st, false⟩ := by
  simp [reschedule_appointment, h]

theorem resched_invalid {id sid : Str} {st : Store} {b : Booking}
    (h : dlookup id st.bookings = some b) (hp : parse_slot_id sid = none) :
    reschedule_appointment id sid st = ⟨invalidNewSlotMsg, st, false⟩ := by
  simp [reschedule_appointment, h, hp]

theorem resched_unavailable {id sid d dk t : Str} {st : Store} {b : Booking}
    (h : dlookup id st.bookings = some b)
    (hp : parse_slot_id sid = some (d, dk, t))
    (htaken : (dlookup (slot_key d dk t) st.booked_slots).isSome = true) :
    reschedule_appointment id sid st = ⟨newSlotUnavailableMsg, st, false⟩ := by
  simp [reschedule_appointment, h, hp, htaken]

theorem resched_free {id sid d dk t : Str} {st : Store} {b : Booking}
    (h : dlookup id st.bookings = some b)
    (hp : parse_slot_id sid = some (d, dk, t))
    (hfree : dlookup (slot_key d dk t) st.booked_slots = none) :
    reschedule_appointment id sid st =
      ⟨rescheduledMsg id d t,
        ⟨dinsert id
          { b with
              slot_id := sid
              slot_key := slot_key d dk t
              doctor := doctor_label dk
              date := d
              time := t } st.bookings,
          dinsert (slot_key d dk t) id
            (if b.slot_key ≠ [] then derase b.slot_key st.booked_slots
              else st.booked_slots)⟩, true⟩ := by
  simp [reschedule_appointment, h, hp, hfree]

/-! ## Invariant preservation -/

theorem slot_key_ne_nil (d dk t : Str) : slot_key d dk t ≠ [] := by
  cases dk <;> simp [slot_key]

theorem mem_keys_of_mem {β : Type} {e : Str × β} {m : List (Str × β)}
    (h : e ∈ m) : e.1 ∈ m.map Prod.fst :=
  List.mem_map.mpr ⟨e, h, rfl⟩

theorem mem_snd_of_mem {β : Type} {e : Str × β} {m : List (Str × β)}
    (h : e ∈ m) : e.2 ∈ m.map Prod.snd :=
  List.mem_map.mpr ⟨e, h, rfl⟩

theorem not_mem_derase_self_key {β : Type} {k : Str} {m : List (Str × β)}
    (hn : (m.map Prod.fst).Nodup) {e : Str × β} (he : e ∈ derase k m)
    (hek : e.1 = k) : False := by
  have h1 := dlookup_derase_self (k := k) hn
  rw [dlookup_eq_none_iff_not_mem_keys] at h1
  have h2 : e.1 ∈ (derase k m).map Prod.fst := mem_keys_of_mem he
  rw [hek] at h2
  exact h1 h2

theorem good_value_unique {st : Store} {id : Str} {b : Booking}
    (hg : GoodStore st) (hb : dlookup id st.bookings = some b)
    {e : Str × Str} (he : e ∈ st.booked_slots) (hei : e.2 = id) :
    e = (b.slot_key, id) := by
  have h1 := hg.2.2.1 e he
  rw [hei, hb] at h1
  simp only [Option.map_some'] at h1
  exact Prod.ext_iff.mpr ⟨(Option.some.inj h1).symm, hei⟩

theorem good_slot_mem {st : Store} {id : Str} {b : Booking} (hg : GoodStore st)
    (hb : dlookup id st.bookings = some b) :
    (b.slot_key, id) ∈ st.booked_slots := by
  have hmem : (id, b) ∈ st.bookings := mem_of_dlookup_eq_some hb
  obtain ⟨e, he, hee⟩ := List.mem_map.mp (hg.2.2.2 (id, b) hmem)
  exact good_value_unique hg hb he hee ▸ he

theorem good_book {st : Store} {conf sid p r : Str} (hg : GoodStore st)
    (hfresh : dlookup conf st.bookings = none) :
    GoodStore (book_appointment conf sid p r st).store := by
  rcases hp : parse_slot_id sid with _ | ⟨d, dk, t⟩
  · rw [book_invalid hp]
    exact hg
  rcases hk : dlookup (slot_key d dk t) st.booked_slots with _ | c0
  case some => rw [book_unavailable hp (by rw [hk]; rfl)]; exact hg
  rw [book_free hp hk]
  obtain ⟨⟨hnb, hns⟩, hne, inv1, inv2⟩ := hg
  have hb' : dinsert conf
      (⟨p, r, sid, slot_key d dk t, doctor_label dk, d, t⟩ : Booking) st.bookings =
      st.bookings ++ [(conf, ⟨p, r, sid, slot_key d dk t, doctor_label dk, d, t⟩)] :=
    dinsert_eq_append _ hfresh
  have hs' : dinsert (slot_key d dk t) conf st.booked_slots =
      st.booked_slots ++ [(slot_key d dk t, conf)] := dinsert_eq_append _ hk
  dsimp only
  rw [hb', hs']
  refine ⟨⟨?_, ?_⟩, ?_, ?_, ?_⟩
  · rw [List.map_append, List.nodup_append]
    refine ⟨hnb, by simp, ?_⟩
    intro a ha hmem
    simp at hmem
    subst hmem
    exact (dlookup_eq_none_iff_not_mem_keys.mp hfresh) ha
  · rw [List.map_append, List.nodup_append]
    refine ⟨hns, by simp, ?_⟩
    intro a ha hmem
    simp at hmem
    subst hmem
    exact (dlookup_eq_none_iff_not_mem_keys.mp hk) ha
  · intro e he
    rcases List.mem_append.mp he with h | h
    · exact hne e h
    · simp only [List.mem_singleton] at h
      subst h
      exact slot_key_ne_nil d dk t
  · intro e he
    rcases List.mem_append.mp he with h | h
    · have h1 := inv1 e h
      obtain ⟨bb, hbb, hbk⟩ := Option.map_eq_some'.mp h1
      rw [dlookup_append_of_some hbb]
      simp [hbk]
    · simp only [List.mem_singleton] at h
      subst h
      dsimp only
      rw [dlookup_append_of_none hfresh]
      simp [dlookup]
  · intro e he
    rcases List.mem_append.mp he with h | h
    · rw [List.map_append]
      exact List.mem_append_left _ (inv2 e h)
    · simp only [List.mem_singleton] at h
      subst h
      rw [List.map_append]
      exact List.mem_append_right _ (by simp)

theorem good_cancel {st : Store} {id : Str} (hg : GoodStore st) :
    GoodStore (cancel_appointment id st).store := by
  rcases hb : dlookup id st.bookings with _ | b
  · rw [cancel_not_found hb]
    exact hg
  rw [cancel_found hb]
  have hslot := good_slot_mem hg hb
  obtain ⟨⟨hnb, hns⟩, hne, inv1, inv2⟩ := hg
  have hgood : GoodStore st := ⟨⟨hnb, hns⟩, hne, inv1, inv2⟩
  dsimp only
  refine ⟨⟨?_, ?_⟩, ?_, ?_, ?_⟩
  · exact hnb.sublist ((derase_sublist id st.bookings).map Prod.fst)
  · exact hns.sublist ((derase_sublist b.slot_key st.booked_slots).map Prod.fst)
  · intro e he
    exact hne e (mem_of_mem_derase he)
  · intro e he
    have he' := mem_of_mem_derase he
    have hei : e.2 ≠ id := by
      intro hei
      have heq := good_value_unique hgood hb he' hei
      exact not_mem_derase_self_key (k := b.slot_key) hns he (by rw [heq])
    rw [dlookup_derase_ne _ hei]
    exact inv1 e he'
  · intro e he
    have he' := mem_of_mem_derase he
    have hei : e.1 ≠ id := fun hei => not_mem_derase_self_key hnb he hei
    obtain ⟨f, hf, hf2⟩ := List.mem_map.mp (inv2 e he')
    have hfk : f.1 ≠ b.slot_key := by
      intro hfk
      have h1 : (f.1, f.2) ∈ st.booked_slots := by simpa using hf
      have h2 : (f.1, id) ∈ st.booked_slots := hfk ▸ hslot
      have hfi : f.2 = id := nodup_key_unique hns h1 h2
      rw [hf2] at hfi
      exact hei hfi
    exact hf2 ▸ mem_snd_of_mem (mem_derase_of_ne hf hfk)

theorem good_resched {st : Store} {id sid : Str} (hg : GoodStore st) :
    GoodStore (reschedule_appointment id sid st).store := by
  rcases hb : dlookup id st.bookings with _ | b
  · rw [resched_not_found hb]
    exact hg
  rcases hp : parse_slot_id sid with _ | ⟨d, dk, t⟩
  · rw [resched_invalid hb hp]
    exact hg
  rcases hk : dlookup (slot_key d dk t) st.booked_slots with _ | c0
  case some => rw [resched_unavailable hb hp (by rw [hk]; rfl)]; exact hg
  rw [resched_free hb hp hk]
  have hslot := good_slot_mem hg hb
  have hkne : slot_key d dk t ≠ b.slot_key := by
    intro hh
    rw [hh, dlookup_eq_none_iff_not_mem_keys] at hk
    exact hk (mem_keys_of_mem hslot)
  obtain ⟨⟨hnb, hns⟩, hne, inv1, inv2⟩ := hg
  have hgood : GoodStore st := ⟨⟨hnb, hns⟩, hne, inv1, inv2⟩
  have hbne : b.slot_key ≠ [] := hne _ hslot
  rw [if_pos hbne]
  have hkd : dlookup (slot_key d dk t) (derase b.slot_key st.booked_slots) = none := by
    rw [dlookup_derase_ne _ hkne]
    exact hk
  have hs' : dinsert (slot_key d dk t) id (derase b.slot_key st.booked_slots) =
      derase b.slot_key st.booked_slots ++ [(slot_key d dk t, id)] :=
    dinsert_eq_append _ hkd
  dsimp only
  rw [hs']
  refine ⟨⟨?_, ?_⟩, ?_, ?_, ?_⟩
  · rw [keys_dinsert_of_mem _ (mem_keys_of_mem (mem_of_dlookup_eq_some hb))]
    exact hnb
  · rw [List.map_append, List.nodup_append]
    refine ⟨hns.sublist ((derase_sublist b.slot_key st.booked_slots).map Prod.fst),
      by simp, ?_⟩
    intro a ha hmem
    simp at hmem
    subst hmem
    rw [dlookup_eq_none_iff_not_mem_keys] at hkd
    exact hkd ha
  · intro e he
    rcases List.mem_append.mp he with h | h
    · exact hne e (mem_of_mem_derase h)
    · simp only [List.mem_singleton] at h
      subst h
      exact slot_key_ne_nil d dk t
  · intro e he
    rcases List.mem_append.mp he with h | h
    · have he' := mem_of_mem_derase h
      have hei : e.2 ≠ id := by
        intro hei
        have heq := good_value_unique hgood hb he' hei
        exact not_mem_derase_self_key (k := b.slot_key) hns h (by rw [heq])
      rw [dlookup_dinsert_ne _ _ hei]
      exact inv1 e he'
    · simp only [List.mem_singleton] at h
      subst h
      dsimp only
      rw [dlookup_dinsert_self]
      rfl
  · intro e he
    rcases mem_dinsert he with h | h
    · subst h
      dsimp only
      rw [List.map_append]
      exact List.mem_append_right _ (by simp)
    · by_cases hei : e.1 = id
      · rw [List.map_append, hei]
        exact List.mem_append_right _ (by simp)
      · obtain ⟨f, hf, hf2⟩ := List.mem_map.mp (inv2 e h)
        have hfk : f.1 ≠ b.slot_key := by
          intro hfk
          have h1 : (f.1, f.2) ∈ st.booked_slots := by simpa using hf
          have h2 : (f.1, id) ∈ st.booked_slots := hfk ▸ hslot
          have hfi : f.2 = id := nodup_key_unique hns h1 h2
          rw [hf2] at hfi
          exact hei hfi
        rw [List.map_append]
        exact List.mem_append_left _ (hf2 ▸ mem_snd_of_mem (mem_derase_of_ne hf hfk))

theorem derase_append_last {β : Type} {k : Str} {m : List (Str × β)} (v : β)
    (h : dlookup k m = none) : derase k (m ++ [(k, v)]) = m := by
  induction m with
  | nil => simp [derase]
  | cons e es ih =>
    by_cases he : e.1 = k
    · simp [dlookup, he] at h
    · simp [dlookup, he] at h
      simp [derase, he, ih h]

/-! ## Model of the isdigit-int divergence in the source

Python's `str.isdigit` accepts every character with Unicode property
`Numeric_Type = Digit` (for instance the superscript digits U+2070 to U+2079),
while `int()` accepts only decimal digits, so
`_parse_slot_id` raises an uncaught `ValueError` at `int(time_token)` when the
cleaned token passes the `isdigit` gate but contains a non-decimal digit
character. `pyIsdigit` below models `str.isdigit` on ASCII plus the
superscript digits (the character set used in this development), and
`parse_slot_id_raises` computes whether execution reaches `int(time_token)`
with such a token. -/

/-- The superscript digit characters, accepted by Python `str.isdigit` but
rejected by `int()`. -/
def pySuperDigits : Str := "⁰¹²³⁴⁵⁶⁷⁸⁹".toList

/-- Python `str.isdigit` restricted to the characters used here: ASCII digits
and superscript digits. -/
def pyIsdigit (c : Char) : Bool := c.isDigit || pySuperDigits.contains c

/-- Whether the shared tail of `_parse_slot_id` raises `ValueError` at
`int(time_token)`: valid date, cleaned token of length three or four that
passes `isdigit` but is not made of decimal digits. -/
def parseRaisesAt (date time_token : Str) : Bool :=
  validDate date &&
  ((time_token.filter (fun c => c ≠ '-' && c ≠ '_')).length = 3 ||
    (time_token.filter (fun c => c ≠ '-' && c ≠ '_')).length = 4) &&
  (time_token.filter (fun c => c ≠ '-' && c ≠ '_')).all pyIsdigit &&
  !(time_token.filter (fun c => c ≠ '-' && c ≠ '_')).all Char.isDigit

/-- Whether `_parse_slot_id slot_id` raises an uncaught `ValueError` instead
of returning, following the source's branch structure. -/
def parse_slot_id_raises (slot_id : Str) : Bool :=
  match pySplit ':' slot_id with
  | [date, _, time_token] => parseRaisesAt date time_token
  | _ =>
    if 13 ≤ (slot_id.filter (fun c => c ≠ ' ')).length &&
        ((slot_id.filter (fun c => c ≠ ' ')).get? 10 = some '-' ||
          (slot_id.filter (fun c => c ≠ ' ')).get? 10 = some '_') then
      parseRaisesAt ((slot_id.filter (fun c => c ≠ ' ')).take 10)
        ((slot_id.filter (fun c => c ≠ ' ')).drop 11)
    else false

/-- The slot key an external identifier is indexed under: `_parse_slot_id`
followed by `_slot_key`. -/
def slotKeyOf (s : Str) : Option Str :=
  (parse_slot_id s).map (fun tr => slot_key tr.1 tr.2.1 tr.2.2)

/-- The claim's words, for comparison with the source: the form of an
identifier with all whitespace characters removed (the source removes only
the space character). -/
def wsStripped (s : Str) : Str := s.filter (fun c => !c.isWhitespace)

/-! ## Sample stores used by witnesses and counterexamples -/

/-- A booking of slot `2025-01-15:dr-smith:0900`, as `book_appointment`
creates it. -/
def c1Booking : Booking :=
  ⟨"Jane Doe".toList, "checkup".toList, "2025-01-15:dr-smith:0900".toList,
    "dr-smith:2025-01-15:09:00".toList, "Dr Smith".toList,
    "2025-01-15".toList, "09:00".toList⟩

/-- A consistent store holding exactly the booking `c1Booking` under
confirmation `APT-00000001`. -/
def c1Store : Store :=
  ⟨[("APT-00000001".toList, c1Booking)],
    [("dr-smith:2025-01-15:09:00".toList, "APT-00000001".toList)]⟩

/-! ## Claims -/

/-- Claim C1 (code-bug evidence): rescheduling a booking to its own current
slot does not succeed — because `reschedule_appointment` tests the new slot
key against `booked_slots` before releasing the old key, the booking's own
key is found occupied and the operation reports the slot as unavailable,
leaving the store unchanged. In the consistent store `c1Store` holding one
booking of slot `2025-01-15:dr-smith:0900`, rescheduling that booking to the
same slot identifier returns the SlotUnavailable message, contradicting the
spec's idempotent-self-reschedule property. -/
theorem C1_self_reschedule_self_blocks :
    GoodStore c1Store ∧
    reschedule_appointment ("APT-00000001".toList)
      ("2025-01-15:dr-smith:0900".toList) c1Store =
      ⟨newSlotUnavailableMsg, c1Store, false⟩ := by
  constructor
  · decide
  · decide

/-- Claim C2, counterexample: two canonical identifiers differing only in the
letter case of the provider segment do not get equal slot keys — the
canonical parse path keeps the provider segment verbatim, so `DR-SMITH` and
`dr-smith` yield different keys. -/
theorem C2_case_counterexample :
    slotKeyOf ("2025-01-15:DR-SMITH:0900".toList) =
      some ("DR-SMITH:2025-01-15:09:00".toList) ∧
    slotKeyOf ("2025-01-15:dr-smith:0900".toList) =
      some ("dr-smith:2025-01-15:09:00".toList) ∧
    slotKeyOf ("2025-01-15:DR-SMITH:0900".toList) ≠
      slotKeyOf ("2025-01-15:dr-smith:0900".toList) := by
  refine ⟨by decide, by decide, by decide⟩

/-- Claim C2 (amended): for two canonical identifiers that differ only in the
padding of the time token — both tokens all ASCII digits of length three or
four with the same numeric value — the computed slot keys are equal (and
defined). Case differences in the provider segment are not normalized and
yield different keys, per the counterexample. -/
theorem C2_time_padding_same_key (date prov t1 t2 : Str)
    (hd : validDate date = true) (hpc : ':' ∉ prov)
    (hl1 : t1.length = 3 ∨ t1.length = 4) (hd1 : t1.all Char.isDigit = true)
    (hl2 : t2.length = 3 ∨ t2.length = 4) (hd2 : t2.all Char.isDigit = true)
    (hv : digitsVal t1 = digitsVal t2) :
    slotKeyOf (date ++ ':' :: (prov ++ ':' :: t1)) =
      slotKeyOf (date ++ ':' :: (prov ++ ':' :: t2)) ∧
    (slotKeyOf (date ++ ':' :: (prov ++ ':' :: t1))).isSome = true := by
  rw [slotKeyOf, slotKeyOf, parse_canonical hd hpc hl1 hd1,
    parse_canonical hd hpc hl2 hd2]
  constructor
  · simp only [normTime, hv]
  · rfl

/-- Witness for C2 at the padding pair `900` and `0900`. -/
theorem C2_witness :
    slotKeyOf ("2025-01-15".toList ++ ':' :: ("dr-smith".toList ++ ':' :: "900".toList)) =
      slotKeyOf ("2025-01-15".toList ++ ':' :: ("dr-smith".toList ++ ':' :: "0900".toList)) ∧
    (slotKeyOf ("2025-01-15".toList ++ ':' ::
      ("dr-smith".toList ++ ':' :: "900".toList))).isSome = true :=
  C2_time_padding_same_key ("2025-01-15".toList) ("dr-smith".toList)
    ("900".toList) ("0900".toList) (by decide) (by decide) (by decide)
    (by decide) (by decide) (by decide) (by decide)

/-- Claim C3: once `book_appointment` has succeeded on a slot, a second
booking attempt with any identifier parsing to the same triple — the same
identifier included — returns the SlotUnavailable message, leaves the store
unchanged and does not persist. -/
theorem C3_no_double_booking (st : Store) (conf1 conf2 sid1 sid2 p1 r1 p2 r2 : Str)
    (tr : Str × Str × Str)
    (hp1 : parse_slot_id sid1 = some tr) (hp2 : parse_slot_id sid2 = some tr)
    (hb : (book_appointment conf1 sid1 p1 r1 st).persisted = true) :
    book_appointment conf2 sid2 p2 r2 (book_appointment conf1 sid1 p1 r1 st).store =
      ⟨slotUnavailableMsg, (book_appointment conf1 sid1 p1 r1 st).store, false⟩ := by
  obtain ⟨d, dk, t⟩ := tr
  rcases hk : dlookup (slot_key d dk t) st.booked_slots with _ | c0
  · rw [book_free hp1 hk]
    dsimp only
    refine book_unavailable hp2 ?_
    dsimp only
    rw [dlookup_dinsert_self]
    rfl
  · rw [book_unavailable hp1 (by rw [hk]; rfl)] at hb
    simp at hb

/-- Witness for C3: booking `2025-01-15:dr-smith:0900` on the empty store and
booking the equivalent legacy spelling again. -/
theorem C3_witness :
    book_appointment ("APT-00000002".toList) ("2025-01-15-0900".toList)
      ("Bob".toList) ("exam".toList)
      (book_appointment ("APT-00000001".toList) ("2025-01-15:any:0900".toList)
        ("Jane Doe".toList) ("checkup".toList) emptyStore).store =
      ⟨slotUnavailableMsg,
        (book_appointment ("APT-00000001".toList) ("2025-01-15:any:0900".toList)
          ("Jane Doe".toList) ("checkup".toList) emptyStore).store, false⟩ :=
  C3_no_double_booking emptyStore ("APT-00000001".toList) ("APT-00000002".toList)
    ("2025-01-15:any:0900".toList) ("2025-01-15-0900".toList)
    ("Jane Doe".toList) ("checkup".toList) ("Bob".toList) ("exam".toList)
    ("2025-01-15".toList, "any".toList, "09:00".toList)
    (by decide) (by decide) (by decide)

/-- Claim C4: the store-consistency invariant — every slot-index entry points
at an existing booking whose `slot_key` field equals the index key, and every
booking's confirmation appears as an index value — holds in the empty store
and is preserved by `book_appointment` (with a fresh confirmation code, as
`uuid4` supplies), `cancel_appointment` and `reschedule_appointment`, on
success and failure paths alike. `GoodStore` packages the claim's invariant
`StoreInv` with dictionary key uniqueness and nonemptiness of the stored slot
keys, the inductive strengthening under which all three operations preserve
it. -/
theorem C4_store_invariant :
    (WF emptyStore ∧ slotKeysNE emptyStore ∧ StoreInv emptyStore) ∧
    (∀ st conf sid p r, GoodStore st → dlookup conf st.bookings = none →
      GoodStore (book_appointment conf sid p r st).store) ∧
    (∀ st id, GoodStore st → GoodStore (cancel_appointment id st).store) ∧
    (∀ st id sid, GoodStore st → GoodStore (reschedule_appointment id sid st).store) := by
  refine ⟨by decide, ?_, ?_, ?_⟩
  · intro st conf sid p r hg hf
    exact good_book hg hf
  · intro st id hg
    exact good_cancel hg
  · intro st id sid hg
    exact good_resched hg

/-- Witness for C4: booking on the empty store yields a store satisfying the
full invariant. -/
theorem C4_witness :
    GoodStore (book_appointment ("APT-00000001".toList)
      ("2025-01-15:dr-smith:0900".toList) ("Jane Doe".toList)
      ("checkup".toList) emptyStore).store :=
  C4_store_invariant.2.1 emptyStore ("APT-00000001".toList)
    ("2025-01-15:dr-smith:0900".toList) ("Jane Doe".toList)
    ("checkup".toList) (by decide) (by decide)

/-- Claim C5: for a canonical identifier `date:provider:HHMM` with a real
calendar date, a colon-free provider segment and a four-digit time token,
formatting the parsed triple with `format_slot_id` yields the identifier
itself, and re-parsing the re-formatted identifier yields the identical
triple. -/
theorem C5_roundtrip (date prov t : Str) (hd : validDate date = true)
    (hpc : ':' ∉ prov) (h4 : t.length = 4) (hdig : t.all Char.isDigit = true) :
    parse_slot_id (date ++ ':' :: (prov ++ ':' :: t)) = some (date, prov, normTime t) ∧
    format_slot_id date prov (normTime t) = date ++ ':' :: (prov ++ ':' :: t) ∧
    parse_slot_id (format_slot_id date prov (normTime t)) =
      some (date, prov, normTime t) := by
  have h1 := parse_canonical hd hpc (Or.inr h4) hdig
  have h2 := format_normTime date prov h4 hdig
  exact ⟨h1, h2, by rw [h2]; exact h1⟩

/-- Witness for C5 at `2025-01-15:dr-smith:0900`. -/
theorem C5_witness :
    parse_slot_id ("2025-01-15".toList ++ ':' :: ("dr-smith".toList ++ ':' :: "0900".toList)) =
      some ("2025-01-15".toList, "dr-smith".toList, normTime ("0900".toList)) ∧
    format_slot_id ("2025-01-15".toList) ("dr-smith".toList) (normTime ("0900".toList)) =
      "2025-01-15".toList ++ ':' :: ("dr-smith".toList ++ ':' :: "0900".toList) ∧
    parse_slot_id (format_slot_id ("2025-01-15".toList) ("dr-smith".toList)
        (normTime ("0900".toList))) =
      some ("2025-01-15".toList, "dr-smith".toList, normTime ("0900".toList)) :=
  C5_roundtrip ("2025-01-15".toList) ("dr-smith".toList) ("0900".toList)
    (by decide) (by decide) (by decide) (by decide)

/-- Claim C6: on a consistent store, a successful reschedule keeps the
booking stored under the same confirmation code with the new date, time,
provider label and slot key from the new identifier; the old slot key is no
longer in the index and the new slot key maps to the confirmation. -/
theorem C6_reschedule_preserves_identity (st : Store) (id sid : Str) (b : Booking)
    (d dk t : Str) (hg : GoodStore st) (hb : dlookup id st.bookings = some b)
    (hp : parse_slot_id sid = some (d, dk, t))
    (hfree : dlookup (slot_key d dk t) st.booked_slots = none) :
    (reschedule_appointment id sid st).persisted = true ∧
    (reschedule_appointment id sid st).msg = rescheduledMsg id d t ∧
    dlookup id (reschedule_appointment id sid st).store.bookings =
      some { b with
        slot_id := sid
        slot_key := slot_key d dk t
        doctor := doctor_label dk
        date := d
        time := t } ∧
    dlookup b.slot_key (reschedule_appointment id sid st).store.booked_slots = none ∧
    dlookup (slot_key d dk t) (reschedule_appointment id sid st).store.booked_slots =
      some id := by
  have hslot := good_slot_mem hg hb
  have hbne : b.slot_key ≠ [] := hg.2.1 _ hslot
  have hkne : slot_key d dk t ≠ b.slot_key := by
    intro hh
    rw [hh, dlookup_eq_none_iff_not_mem_keys] at hfree
    exact hfree (mem_keys_of_mem hslot)
  rw [resched_free hb hp hfree, if_pos hbne]
  dsimp only
  refine ⟨rfl, rfl, ?_, ?_, ?_⟩
  · rw [dlookup_dinsert_self]
  · rw [dlookup_dinsert_ne _ _ (Ne.symm hkne)]
    exact dlookup_derase_self hg.1.2
  · rw [dlookup_dinsert_self]

/-- Witness for C6: rescheduling the booking of `c1Store` to the free slot
`2025-01-16:dr-smith:0900`. -/
theorem C6_witness :
    (reschedule_appointment ("APT-00000001".toList)
      ("2025-01-16:dr-smith:0900".toList) c1Store).persisted = true ∧
    (reschedule_appointment ("APT-00000001".toList)
      ("2025-01-16:dr-smith:0900".toList) c1Store).msg =
      rescheduledMsg ("APT-00000001".toList) ("2025-01-16".toList) ("09:00".toList) ∧
    dlookup ("APT-00000001".toList)
      (reschedule_appointment ("APT-00000001".toList)
        ("2025-01-16:dr-smith:0900".toList) c1Store).store.bookings =
      some { c1Booking with
        slot_id := "2025-01-16:dr-smith:0900".toList
        slot_key := slot_key ("2025-01-16".toList) ("dr-smith".toList) ("09:00".toList)
        doctor := doctor_label ("dr-smith".toList)
        date := "2025-01-16".toList
        time := "09:00".toList } ∧
    dlookup c1Booking.slot_key
      (reschedule_appointment ("APT-00000001".toList)
        ("2025-01-16:dr-smith:0900".toList) c1Store).store.booked_slots = none ∧
    dlookup (slot_key ("2025-01-16".toList) ("dr-smith".toList) ("09:00".toList))
      (reschedule_appointment ("APT-00000001".toList)
        ("2025-01-16:dr-smith:0900".toList) c1Store).store.booked_slots =
      some ("APT-00000001".toList) :=
  C6_reschedule_preserves_identity c1Store ("APT-00000001".toList)
    ("2025-01-16:dr-smith:0900".toList) c1Booking ("2025-01-16".toList)
    ("dr-smith".toList) ("09:00".toList) (by decide) (by decide) (by decide)
    (by decide)

theorem cancel_after_book {st : Store} {conf sid p r d dk t : Str}
    (hp : parse_slot_id sid = some (d, dk, t))
    (hfree : dlookup (slot_key d dk t) st.booked_slots = none)
    (hfresh : dlookup conf st.bookings = none) :
    cancel_appointment conf (book_appointment conf sid p r st).store =
      ⟨cancelledMsg conf, st, true⟩ := by
  rw [book_free hp hfree]
  dsimp only
  rw [cancel_found (dlookup_dinsert_self conf _ st.bookings)]
  dsimp only
  rw [dinsert_eq_append _ hfresh, derase_append_last _ hfresh,
    dinsert_eq_append _ hfree, derase_append_last _ hfree]

/-- Claim C7: after a successful booking, cancelling its confirmation
succeeds and removes both the booking record and the slot-index entry —
restoring the original store — so a subsequent booking of the same slot
succeeds again, and when the slot's time is one of the three template times
the availability listing for that date and provider shows the slot as open
once more. -/
theorem C7_cancel_frees_slot (st : Store) (conf conf2 sid p r p2 r2 d dk t : Str)
    (hp : parse_slot_id sid = some (d, dk, t))
    (hfree : dlookup (slot_key d dk t) st.booked_slots = none)
    (hfresh : dlookup conf st.bookings = none) :
    (book_appointment conf sid p r st).persisted = true ∧
    cancel_appointment conf (book_appointment conf sid p r st).store =
      ⟨cancelledMsg conf, st, true⟩ ∧
    dlookup conf (cancel_appointment conf
      (book_appointment conf sid p r st).store).store.bookings = none ∧
    dlookup (slot_key d dk t) (cancel_appointment conf
      (book_appointment conf sid p r st).store).store.booked_slots = none ∧
    (book_appointment conf2 sid p2 r2 (cancel_appointment conf
      (book_appointment conf sid p r st).store).store).persisted = true ∧
    (t ∈ DEFAULT_TIME_SLOTS → ∀ doctor,
      normalize_doctor (if doctor = [] then "clinic".toList else doctor) = dk →
      (t ++ " (slot ".toList ++ format_slot_id d dk t ++ ")".toList) ∈
        openSlots d doctor (cancel_appointment conf
          (book_appointment conf sid p r st).store).store) := by
  rw [cancel_after_book hp hfree hfresh]
  dsimp only
  refine ⟨?_, rfl, hfresh, hfree, ?_, ?_⟩
  · rw [book_free hp hfree]
  · rw [book_free hp hfree]
  · intro ht doctor hdoc
    refine List.mem_filterMap.mpr ⟨t, ht, ?_⟩
    dsimp only
    rw [hdoc, hfree]
    rfl

/-- Witness for C7: book, cancel and rebook `2025-01-15:dr-smith:0900` on the
empty store; the availability entry for `09:00` under doctor text
`Dr. Smith` is listed again. -/
theorem C7_witness :
    (book_appointment ("APT-00000001".toList) ("2025-01-15:dr-smith:0900".toList)
      ("Jane Doe".toList) ("checkup".toList) emptyStore).persisted = true ∧
    cancel_appointment ("APT-00000001".toList)
      (book_appointment ("APT-00000001".toList) ("2025-01-15:dr-smith:0900".toList)
        ("Jane Doe".toList) ("checkup".toList) emptyStore).store =
      ⟨cancelledMsg ("APT-00000001".toList), emptyStore, true⟩ ∧
    dlookup ("APT-00000001".toList) (cancel_appointment ("APT-00000001".toList)
      (book_appointment ("APT-00000001".toList) ("2025-01-15:dr-smith:0900".toList)
        ("Jane Doe".toList) ("checkup".toList) emptyStore).store).store.bookings = none ∧
    dlookup (slot_key ("2025-01-15".toList) ("dr-smith".toList) ("09:00".toList))
      (cancel_appointment ("APT-00000001".toList)
        (book_appointment ("APT-00000001".toList) ("2025-01-15:dr-smith:0900".toList)
          ("Jane Doe".toList) ("checkup".toList) emptyStore).store).store.booked_slots =
      none ∧
    (book_appointment ("APT-00000002".toList) ("2025-01-15:dr-smith:0900".toList)
      ("Bob".toList) ("exam".toList)
      (cancel_appointment ("APT-00000001".toList)
        (book_appointment ("APT-00000001".toList) ("2025-01-15:dr-smith:0900".toList)
          ("Jane Doe".toList) ("checkup".toList) emptyStore).store).store).persisted =
      true ∧
    ("09:00".toList ∈ DEFAULT_TIME_SLOTS → ∀ doctor,
      normalize_doctor (if doctor = [] then "clinic".toList else doctor) =
        "dr-smith".toList →
      ("09:00".toList ++ " (slot ".toList ++
        format_slot_id ("2025-01-15".toList) ("dr-smith".toList) ("09:00".toList) ++
        ")".toList) ∈
        openSlots ("2025-01-15".toList) doctor
          (cancel_appointment ("APT-00000001".toList)
            (book_appointment ("APT-00000001".toList)
              ("2025-01-15:dr-smith:0900".toList) ("Jane Doe".toList)
              ("checkup".toList) emptyStore).store).store) :=
  C7_cancel_frees_slot emptyStore ("APT-00000001".toList) ("APT-00000002".toList)
    ("2025-01-15:dr-smith:0900".toList) ("Jane Doe".toList) ("checkup".toList)
    ("Bob".toList) ("exam".toList) ("2025-01-15".toList) ("dr-smith".toList)
    ("09:00".toList) (by decide) (by decide) (by decide)

/-- Claim C8 (code-bug evidence): the operations layer does not always return
a status. For the slot identifier `2025-01-15:dr-smith:⁰⁹⁰⁰`, whose time
token is made of superscript digits, the cleaned token passes the
`str.isdigit` gate but `int()` rejects it, so `_parse_slot_id` — and with it
`book_appointment` and `reschedule_appointment` — raises an uncaught
`ValueError` (first conjunct, via the divergence model
`parse_slot_id_raises`). The failure-path half of the claim does hold and is
recorded at the spec's own example: cancelling the unknown confirmation
`APT-DOESNOTEXIST` returns the BookingNotFound message with the store
unchanged and not persisted (second conjunct). -/
theorem C8_unicode_digit_token_raises :
    parse_slot_id_raises ("2025-01-15:dr-smith:⁰⁹⁰⁰".toList) = true ∧
    cancel_appointment ("APT-DOESNOTEXIST".toList) c1Store =
      ⟨notFoundMsg, c1Store, false⟩ := by
  refine ⟨by decide, by decide⟩

/-- Claim C9, counterexample: the source strips only space characters, not
all whitespace. The identifier `2025-01-15-0900` followed by a tab satisfies
every condition of the claim on its whitespace-stripped form — no colons, 15
characters, separator at index 10, valid date, cleaned four-digit time token
— yet `parse_slot_id` returns `none`, because the tab survives the
space-only removal and lands in the time token. -/
theorem C9_tab_counterexample :
    (':' ∉ ("2025-01-15-0900\t".toList)) ∧
    wsStripped ("2025-01-15-0900\t".toList) = "2025-01-15-0900".toList ∧
    13 ≤ (wsStripped ("2025-01-15-0900\t".toList)).length ∧
    (wsStripped ("2025-01-15-0900\t".toList)).get? 10 = some '-' ∧
    validDate ((wsStripped ("2025-01-15-0900\t".toList)).take 10) = true ∧
    ((wsStripped ("2025-01-15-0900\t".toList)).drop 11).filter
      (fun c => c ≠ '-' && c ≠ '_') = "0900".toList ∧
    parse_slot_id ("2025-01-15-0900\t".toList) = none := by
  refine ⟨by decide, by decide, by decide, by decide, by decide, by decide, by decide⟩

/-- Claim C9 (amended): for every legacy compact identifier — no colons,
space-stripped form at least 13 characters with `'-'` or `'_'` at index 10, a
valid calendar date in the first ten characters and a cleaned three-or-four
digit time token after index 10 — `parse_slot_id` yields the date, the
sentinel provider `any`, and the time left-padded to four digits with a colon
inserted; in particular `2025-01-15-0900` parses to
`(2025-01-15, any, 09:00)`. -/
theorem C9_legacy_parse_amended (s : Str) (hnc : ':' ∉ s)
    (hlen : 13 ≤ (s.filter (fun c => c ≠ ' ')).length)
    (hsep : (s.filter (fun c => c ≠ ' ')).get? 10 = some '-' ∨
      (s.filter (fun c => c ≠ ' ')).get? 10 = some '_')
    (hd : validDate ((s.filter (fun c => c ≠ ' ')).take 10) = true)
    (hlt : (((s.filter (fun c => c ≠ ' ')).drop 11).filter
        (fun c => c ≠ '-' && c ≠ '_')).length = 3 ∨
      (((s.filter (fun c => c ≠ ' ')).drop 11).filter
        (fun c => c ≠ '-' && c ≠ '_')).length = 4)
    (hdig : (((s.filter (fun c => c ≠ ' ')).drop 11).filter
        (fun c => c ≠ '-' && c ≠ '_')).all Char.isDigit = true) :
    parse_slot_id s = some ((s.filter (fun c => c ≠ ' ')).take 10, "any".toList,
      normTime (((s.filter (fun c => c ≠ ' ')).drop 11).filter
        (fun c => c ≠ '-' && c ≠ '_'))) ∧
    parse_slot_id ("2025-01-15-0900".toList) =
      some ("2025-01-15".toList, "any".toList, "09:00".toList) :=
  ⟨parse_legacy s hnc hlen hsep hd hlt hdig, by decide⟩

/-- Witness for C9 at the legacy identifier `2025-01-15-0900` itself. -/
theorem C9_witness :
    parse_slot_id ("2025-01-15-0900".toList) =
      some ((("2025-01-15-0900".toList).filter (fun c => c ≠ ' ')).take 10,
        "any".toList,
        normTime (((("2025-01-15-0900".toList).filter (fun c => c ≠ ' ')).drop 11).filter
          (fun c => c ≠ '-' && c ≠ '_'))) ∧
    parse_slot_id ("2025-01-15-0900".toList) =
      some ("2025-01-15".toList, "any".toList, "09:00".toList) :=
  C9_legacy_parse_amended ("2025-01-15-0900".toList) (by decide) (by decide)
    (by decide) (by decide) (by decide) (by decide)

/-- Claim C10: booking is not restricted to the template times. Every
identifier that parses — including out-of-range times such as `99:99` — whose
slot key is free can be booked, the booking and index entry being registered;
while every entry `check_availability` lists comes from one of the three
template times of `DEFAULT_TIME_SLOTS`. -/
theorem C10_book_unrestricted :
    (∀ st conf sid p r d dk t, parse_slot_id sid = some (d, dk, t) →
      dlookup (slot_key d dk t) st.booked_slots = none →
      (book_appointment conf sid p r st).persisted = true ∧
      dlookup conf (book_appointment conf sid p r st).store.bookings =
        some ⟨p, r, sid, slot_key d dk t, doctor_label dk, d, t⟩ ∧
      dlookup (slot_key d dk t)
        (book_appointment conf sid p r st).store.booked_slots = some conf) ∧
    (∀ date doctor st e, e ∈ openSlots date doctor st →
      ∃ t, t ∈ DEFAULT_TIME_SLOTS ∧
        e = t ++ " (slot ".toList ++ format_slot_id date
          (normalize_doctor (if doctor = [] then "clinic".toList else doctor)) t ++
          ")".toList) := by
  constructor
  · intro st conf sid p r d dk t hp hfree
    rw [book_free hp hfree]
    dsimp only
    exact ⟨rfl, by rw [dlookup_dinsert_self], by rw [dlookup_dinsert_self]⟩
  · intro date doctor st e he
    obtain ⟨t, ht, hf⟩ := List.mem_filterMap.mp he
    refine ⟨t, ht, ?_⟩
    by_cases hk : (dlookup (slot_key date
        (normalize_doctor (if doctor = [] then "clinic".toList else doctor)) t)
        st.booked_slots).isSome = true
    · rw [if_pos hk] at hf
      exact absurd hf (by simp)
    · rw [if_neg hk] at hf
      exact (Option.some.inj hf).symm

/-- Witness for C10: booking the out-of-range time `99:99` on the empty store
succeeds and registers the booking. -/
theorem C10_witness :
    (book_appointment ("APT-00000001".toList) ("2025-01-15:dr-x:9999".toList)
      ("Pat".toList) ("visit".toList) emptyStore).persisted = true ∧
    dlookup ("APT-00000001".toList)
      (book_appointment ("APT-00000001".toList) ("2025-01-15:dr-x:9999".toList)
        ("Pat".toList) ("visit".toList) emptyStore).store.bookings =
      some ⟨"Pat".toList, "visit".toList, "2025-01-15:dr-x:9999".toList,
        slot_key ("2025-01-15".toList) ("dr-x".toList) ("99:99".toList),
        doctor_label ("dr-x".toList), "2025-01-15".toList, "99:99".toList⟩ ∧
    dlookup (slot_key ("2025-01-15".toList) ("dr-x".toList) ("99:99".toList))
      (book_appointment ("APT-00000001".toList) ("2025-01-15:dr-x:9999".toList)
        ("Pat".toList) ("visit".toList) emptyStore).store.booked_slots =
      some ("APT-00000001".toList) :=
  C10_book_unrestricted.1 emptyStore ("APT-00000001".toList)
    ("2025-01-15:dr-x:9999".toList) ("Pat".toList) ("visit".toList)
    ("2025-01-15".toList) ("dr-x".toList) ("99:99".toList) (by decide) (by decide)
